import Mathlib

/-!
Verification of the sysbench logger (`src/sb_logger.c`): message priorities,
the text handler (verbosity filtering and duplicate suppression), the
operation handler's percentile validation, the percentile string builders,
the fixed-size text rendering buffers, and the handler registry.

C machine integers are modelled as `Nat`/`Int`; C strings as Lean `String`
(or `List Char` where byte-level truncation matters); fallible functions
return `Option` or a numeric return code mirroring the C convention
(`0` = success, nonzero = failure).
-/

set_option autoImplicit false

/-- Size of the fixed text buffers (`#define TEXT_BUFFER_SIZE 4096`). -/
def TEXT_BUFFER_SIZE : Nat := 4096

/-- Size of the errno description buffer (`#define ERROR_BUFFER_SIZE 256`). -/
def ERROR_BUFFER_SIZE : Nat := 256

/-- Modelled from the spec: the severity enumeration `log_msg_priority_t` is
declared in `sb_logger.h`, which is not part of the sources here.  The spec
gives the order FATAL < ALERT < WARNING < INFO < DEBUG with numerically
increasing values meaning less severe. -/
inductive LogMsgPriority where
  | FATAL
  | ALERT
  | WARNING
  | INFO
  | DEBUG
deriving DecidableEq, Repr

/-- Numeric value of a severity, as the C enum assigns them (FATAL = 0, …,
DEBUG = 4). -/
def LogMsgPriority.toNat : LogMsgPriority → Nat
  | .FATAL => 0
  | .ALERT => 1
  | .WARNING => 2
  | .INFO => 3
  | .DEBUG => 4

/-- Embedding of `get_msg_prefix`: the severity prefix attached to console
output.  The C `switch` names FATAL, ALERT, WARNING and DEBUG and defaults
to the empty prefix for everything else. -/
def msg_pfx : LogMsgPriority → String
  | .FATAL => "FATAL: "
  | .ALERT => "ALERT: "
  | .WARNING => "WARNING: "
  | .DEBUG => "DEBUG: "
  | _ => ""

/-- The text handler's deduplication state: the statics `text_buf` (last
shown text) and `text_cnt` (repeat counter).  `text_cnt` is a C `unsigned
int`; no property here depends on 32-bit wraparound, so it is modelled as
`Nat`. -/
structure TextState where
  text_buf : String
  text_cnt : Nat
deriving DecidableEq, Repr

/-- A TEXT message payload (`log_msg_text_t`): priority, text, and the
`LOG_MSG_TEXT_ALLOW_DUPLICATES` flag bit modelled as a `Bool`. -/
structure TextMsg where
  priority : LogMsgPriority
  text : String
  allow_duplicates : Bool
deriving DecidableEq, Repr

/-- Embedding of `text_handler_process`.  Inputs: the configured verbosity
(`sb_globals.verbosity`), the message, and the dedup state; output: the new
dedup state and the list of lines printed by this call, in order.  The
`strcmp(text_buf, text) == 0` test is string equality; `strncpy` stores the
new text (its producers render into `TEXT_BUFFER_SIZE` buffers, so the copy
is untruncated).  The final `printf` of the C fallthrough appears in both
branches that reach it. -/
def text_handler_process (verbosity : Nat) (msg : TextMsg) (st : TextState) :
    TextState × List String :=
  if msg.priority.toNat > verbosity then
    (st, [])
  else if msg.allow_duplicates = false then
    if st.text_buf = msg.text then
      ({ st with text_cnt := st.text_cnt + 1 }, [])
    else
      ({ text_buf := msg.text, text_cnt := 0 },
        (if st.text_cnt > 0 then
          ["(last message repeated " ++ toString st.text_cnt ++ " times)\n"]
        else [])
        ++ [msg_pfx msg.priority ++ msg.text])
  else
    (st, [msg_pfx msg.priority ++ msg.text])

/-- Embedding of `text_handler_init`.  The verbosity option is read through
the option framework (`sb_get_value_int`, declared outside these sources);
modelled from the spec as a natural number, per the spec's "integer, valid
range 0..DEBUG's numeric value".  Failure (`return 1` after the invalid-value
message) is `none`; success returns the accepted verbosity and the reset
dedup state. -/
def text_handler_init (verbosity : Nat) : Option (Nat × TextState) :=
  if verbosity > LogMsgPriority.DEBUG.toNat then
    none
  else
    some (verbosity, { text_buf := "", text_cnt := 0 })

/-- C1: with duplicate checking enabled and priority admitted by the
verbosity filter, a message equal to the last stored text increments the
repeat counter and prints nothing; a differing message first prints the
"(last message repeated N times)" notice when the counter is nonzero, resets
the counter, stores the new text, and prints the new message with its
severity prefix. -/
theorem text_handler_process_dedup (v : Nat) (msg : TextMsg) (st : TextState)
    (hp : msg.priority.toNat ≤ v) (hd : msg.allow_duplicates = false) :
    (st.text_buf = msg.text →
      text_handler_process v msg st = ({ st with text_cnt := st.text_cnt + 1 }, []))
    ∧ (st.text_buf ≠ msg.text →
      text_handler_process v msg st =
        ({ text_buf := msg.text, text_cnt := 0 },
          (if st.text_cnt > 0 then
            ["(last message repeated " ++ toString st.text_cnt ++ " times)\n"]
          else [])
          ++ [msg_pfx msg.priority ++ msg.text])) := by
  have hnp : ¬ msg.priority.toNat > v := Nat.not_lt.mpr hp
  constructor
  · intro he
    simp [text_handler_process, hnp, hd, he]
  · intro hne
    simp [text_handler_process, hnp, hd, hne]

/-- Witness for C1: sending `"a\n"` while `"a\n"` is stored with counter 1
suppresses the output and bumps the counter to 2; then sending the distinct
`"b\n"` prints the repeat notice followed by the new line, resetting the
state. -/
theorem text_handler_process_dedup_witness :
    text_handler_process 3 ⟨.INFO, "a\n", false⟩ ⟨"a\n", 1⟩ = (⟨"a\n", 2⟩, [])
    ∧ text_handler_process 3 ⟨.INFO, "b\n", false⟩ ⟨"a\n", 1⟩ =
        (⟨"b\n", 0⟩, ["(last message repeated 1 times)\n", "b\n"]) := by
  constructor
  · exact (text_handler_process_dedup 3 ⟨.INFO, "a\n", false⟩ ⟨"a\n", 1⟩
      (by decide) rfl).1 rfl
  · exact ((text_handler_process_dedup 3 ⟨.INFO, "b\n", false⟩ ⟨"a\n", 1⟩
      (by decide) rfl).2 (by decide)).trans (by decide)

/-- C2: a TEXT message whose priority value exceeds the verbosity threshold
is dropped with nothing printed and the dedup state untouched; an admitted
message proceeds to dedup/printing, i.e. it either prints something or (as a
suppressed duplicate) increments the repeat counter. -/
theorem text_handler_process_verbosity (v : Nat) (msg : TextMsg) (st : TextState) :
    (v < msg.priority.toNat → text_handler_process v msg st = (st, []))
    ∧ (msg.priority.toNat ≤ v →
        (text_handler_process v msg st).2 ≠ [] ∨
          (text_handler_process v msg st).1.text_cnt = st.text_cnt + 1) := by
  constructor
  · intro h
    simp [text_handler_process, h]
  · intro hp
    have hnp : ¬ msg.priority.toNat > v := Nat.not_lt.mpr hp
    by_cases hd : msg.allow_duplicates = false
    · by_cases he : st.text_buf = msg.text
      · right
        simp [text_handler_process, hnp, hd, he]
      · left
        simp [text_handler_process, hnp, hd, he]
    · left
      simp [text_handler_process, hnp, hd]

/-- Witness for C2: at verbosity 0 a WARNING message (value 2) is dropped
with state untouched, while at verbosity 3 an INFO message (value 3) is
shown. -/
theorem text_handler_process_verbosity_witness :
    text_handler_process 0 ⟨.WARNING, "w\n", false⟩ ⟨"", 0⟩ = (⟨"", 0⟩, [])
    ∧ ((text_handler_process 3 ⟨.INFO, "w\n", false⟩ ⟨"", 0⟩).2 ≠ [] ∨
        (text_handler_process 3 ⟨.INFO, "w\n", false⟩ ⟨"", 0⟩).1.text_cnt = 0 + 1) := by
  constructor
  · exact (text_handler_process_verbosity 0 ⟨.WARNING, "w\n", false⟩ ⟨"", 0⟩).1 (by decide)
  · exact (text_handler_process_verbosity 3 ⟨.INFO, "w\n", false⟩ ⟨"", 0⟩).2 (by decide)

/-- C7: with the allow-duplicates flag set and priority admitted, the message
is printed unconditionally with its severity prefix — even when its text
equals the stored last text — and the dedup state is returned unchanged. -/
theorem text_handler_process_allow_duplicates (v : Nat) (msg : TextMsg) (st : TextState)
    (hp : msg.priority.toNat ≤ v) (hd : msg.allow_duplicates = true) :
    text_handler_process v msg st = (st, [msg_pfx msg.priority ++ msg.text]) := by
  have hnp : ¬ msg.priority.toNat > v := Nat.not_lt.mpr hp
  simp [text_handler_process, hnp, hd]

/-- Witness for C7: a message identical to the stored last text is still
printed and the state (including the repeat counter) is unchanged. -/
theorem text_handler_process_allow_duplicates_witness :
    text_handler_process 3 ⟨.INFO, "a\n", true⟩ ⟨"a\n", 7⟩ = (⟨"a\n", 7⟩, ["a\n"]) := by
  exact (text_handler_process_allow_duplicates 3 ⟨.INFO, "a\n", true⟩ ⟨"a\n", 7⟩
    (by decide) rfl).trans (by decide)

/-- C8: `text_handler_init` fails exactly when the requested verbosity
exceeds DEBUG's numeric value, and on success resets the dedup state to a
zero counter and an empty last-text buffer. -/
theorem text_handler_init_range (v : Nat) :
    (LogMsgPriority.DEBUG.toNat < v → text_handler_init v = none)
    ∧ (v ≤ LogMsgPriority.DEBUG.toNat →
        text_handler_init v = some (v, { text_buf := "", text_cnt := 0 })) := by
  constructor
  · intro h
    simp [text_handler_init, h]
  · intro h
    simp [text_handler_init, Nat.not_lt.mpr h]

/-- Witness for C8: verbosity 5 is rejected, verbosity 3 (the default) is
accepted with the dedup state reset. -/
theorem text_handler_init_range_witness :
    text_handler_init 5 = none
    ∧ text_handler_init 3 = some (3, { text_buf := "", text_cnt := 0 }) :=
  ⟨(text_handler_init_range 5).1 (by decide), (text_handler_init_range 3).2 (by decide)⟩

/-- The percentile-value check of `oper_handler_init`'s validation loop:
`res < 0 || res > 100`.  Percentile entries are retrieved as strings through
the option framework and parsed by `atof`; the embedding takes the parsed
values (exact rationals) directly. -/
def pct_value_invalid (res : Rat) : Bool := res < 0 || res > 100

/-- The first loop of `oper_handler_init`: walks the percentile list,
returning `none` on the first out-of-range value (the C code returns 1
there), otherwise the count `n` of entries. -/
def oper_validate : List Rat → Option Nat
  | [] => some 0
  | res :: rest =>
    if pct_value_invalid res then none else (oper_validate rest).map (· + 1)

/-- The percentile-related fields of `sb_globals` written by
`oper_handler_init`. -/
structure OperGlobals where
  percentiles : List Rat
  npercentiles : Nat
  histogram : Bool
deriving DecidableEq, Repr

/-- Embedding of `oper_handler_init`.  Inputs: the parsed percentile list,
the `histogram` flag, and whether the external `sb_histogram_init` call
succeeds.  Output: the C return code, the priorities of messages logged
during init (the two validation failures each emit one FATAL message), and
the `sb_globals` percentile fields if the copy loop ran.  On an out-of-range
value the function returns before allocating or copying; the histogram/empty
check happens after the copy. -/
def oper_handler_init (pct : List Rat) (histogram : Bool) (histInitOk : Bool) :
    Nat × List LogMsgPriority × Option OperGlobals :=
  match oper_validate pct with
  | none => (1, [LogMsgPriority.FATAL], none)
  | some n =>
    let g : OperGlobals := { percentiles := pct, npercentiles := n, histogram := histogram }
    if n == 0 && histogram then (1, [LogMsgPriority.FATAL], some g)
    else if histInitOk = false then (1, [], some g)
    else (0, [], some g)

/-- A list containing an out-of-range value never validates. -/
theorem oper_validate_none_of_mem (pct : List Rat) (res : Rat)
    (hm : res ∈ pct) (hi : pct_value_invalid res = true) :
    oper_validate pct = none := by
  induction pct with
  | nil => cases hm
  | cons a rest ih =>
    cases hm with
    | head => simp [oper_validate, hi]
    | tail _ hm2 =>
      by_cases ha : pct_value_invalid a = true <;>
        simp [oper_validate, ha, ih hm2]

/-- A successful validation count equals the list length. -/
theorem oper_validate_length (pct : List Rat) :
    ∀ n : Nat, oper_validate pct = some n → n = pct.length := by
  induction pct with
  | nil =>
    intro n h
    simpa [oper_validate] using h.symm
  | cons a rest ih =>
    intro n h
    simp only [oper_validate] at h
    by_cases ha : pct_value_invalid a = true
    · rw [if_pos ha] at h
      cases h
    · rw [if_neg ha] at h
      cases hrec : oper_validate rest with
      | none =>
        rw [hrec] at h
        cases h
      | some m =>
        rw [hrec] at h
        simp only [Option.map_some', Option.some.injEq] at h
        have hm := ih m hrec
        simp only [List.length_cons]
        omega

/-- C3: percentile validation in `oper_handler_init`.  Any list containing a
value outside [0,100] makes init fail with a FATAL message and no percentile
storage written; the empty list with histogram on fails with a FATAL
message; `{95}` with histogram on succeeds; and whenever the copy loop ran,
the stored count equals the list length and the values are copied in list
order. -/
theorem oper_handler_init_validation :
    (∀ (pct : List Rat) (histogram histInitOk : Bool) (res : Rat),
      res ∈ pct → pct_value_invalid res = true →
        oper_handler_init pct histogram histInitOk = (1, [LogMsgPriority.FATAL], none))
    ∧ (∀ histInitOk : Bool,
        (oper_handler_init [] true histInitOk).1 = 1
        ∧ (oper_handler_init [] true histInitOk).2.1 = [LogMsgPriority.FATAL])
    ∧ (oper_handler_init [95] true true).1 = 0
    ∧ (∀ (pct : List Rat) (histogram histInitOk : Bool) (g : OperGlobals),
        (oper_handler_init pct histogram histInitOk).2.2 = some g →
          g.npercentiles = pct.length ∧ g.percentiles = pct) := by
  refine ⟨?_, ?_, by decide, ?_⟩
  · intro pct histogram histInitOk res hm hi
    simp [oper_handler_init, oper_validate_none_of_mem pct res hm hi]
  · intro histInitOk
    constructor <;> simp [oper_handler_init, oper_validate]
  · intro pct histogram histInitOk g hg
    cases hv : oper_validate pct with
    | none => simp [oper_handler_init, hv] at hg
    | some n =>
      have hn := oper_validate_length pct n hv
      simp only [oper_handler_init, hv] at hg
      by_cases h0 : (n == 0 && histogram) = true
      · simp [h0] at hg
        simp [← hg, hn]
      · by_cases hh : histInitOk = false <;>
          · simp [h0, hh] at hg
            simp [← hg, hn]

/-- Witness for C3: `{-1, 50}` fails validation with a FATAL message and no
storage written; `{}` with histogram on fails with a FATAL message; `{95}`
with histogram on succeeds. -/
theorem oper_handler_init_validation_witness :
    oper_handler_init [-1, 50] false true = (1, [LogMsgPriority.FATAL], none)
    ∧ (oper_handler_init [] true true).1 = 1
    ∧ (oper_handler_init [] true true).2.1 = [LogMsgPriority.FATAL]
    ∧ (oper_handler_init [95] true true).1 = 0 :=
  ⟨oper_handler_init_validation.1 [-1, 50] false true (-1) (by decide) (by decide),
   (oper_handler_init_validation.2.1 true).1,
   (oper_handler_init_validation.2.1 true).2,
   oper_handler_init_validation.2.2.1⟩

/-- `Rat.floor` agrees with the floor of the `FloorRing` structure on `ℚ`. -/
theorem rat_floor_eq_int_floor (q : Rat) : q.floor = ⌊q⌋ := by
  rw [Rat.floor_def', ← Rat.floor_def]

/-- Modelled from the spec: the `SEC2MS` conversion macro lives in
`sysbench.h`, which is not among these sources; per the spec the stored
value (seconds) is multiplied by 1000 to obtain milliseconds. -/
def SEC2MS (x : Rat) : Rat := x * 1000

/-- Modelled from the spec: C `sprintf` fixed-point conversion `%w.2f` for
the nonnegative exactly-representable values used by the percentile
builders — two decimal digits (rounded to nearest), left-padded with spaces
to the minimum field width `w`. -/
def fmt_f2 (width : Nat) (x : Rat) : String :=
  let n : Nat := (x * 100 + 1 / 2).floor.toNat
  let frac := n % 100
  let s := toString (n / 100) ++ "." ++ (if frac < 10 then "0" else "") ++ toString frac
  String.mk (List.replicate (width - s.length) ' ') ++ s

/-- Embedding of `create_pct_string`: builds the report string by appending
one formatted entry per element, in order, applying each entry's format to
the percentile and to `SEC2MS` of the corresponding result.  The C function
iterates `i` from 0 to `npercentiles`, indexing two parallel arrays; the
embedding recurses over the two lists together (an empty set yields the
initial empty string). -/
def create_pct_string (format_entry : Rat → Rat → String) :
    List Rat → List Rat → String
  | [], _ => ""
  | _ :: _, [] => ""
  | p :: ps, r :: rs => format_entry p (SEC2MS r) ++ create_pct_string format_entry ps rs

/-- One entry rendered with the intermediate format string
`"lat (ms,%5.2f%%): %4.2f "`. -/
def fmt_intermediate (p v : Rat) : String :=
  "lat (ms," ++ fmt_f2 5 p ++ "%): " ++ fmt_f2 4 v ++ " "

/-- One entry rendered with the cumulative format string
`"         %5.2fth percentile:%25.2f\n"`. -/
def fmt_cumulative (p v : Rat) : String :=
  "         " ++ fmt_f2 5 p ++ "th percentile:" ++ fmt_f2 25 v ++ "\n"

/-- Embedding of `create_pct_string_intermediate`. -/
def create_pct_string_intermediate (percentiles results : List Rat) : String :=
  create_pct_string fmt_intermediate percentiles results

/-- Embedding of `create_pct_string_cumulative`. -/
def create_pct_string_cumulative (percentiles results : List Rat) : String :=
  create_pct_string fmt_cumulative percentiles results

/-- Embedding of the rendering in `log_text`: the stack buffer is
`char buf[TEXT_BUFFER_SIZE]`; `vsnprintf` writes at most
`TEXT_BUFFER_SIZE - 1` characters of the full rendering and reports the full
length `n`, which the code clamps to `maxlen` when `n >= maxlen` (the C also
clamps a negative encoding-error return, which has no counterpart over
`Nat`); the trailing `snprintf(buf + clen, maxlen, "\n")` stores the newline
only when at least two bytes remain.  Input: the full untruncated rendering
of the caller's format and arguments; output: the buffer contents handed to
the console or the dispatcher. -/
def log_text_buf_chars (rendered : List Char) : List Char :=
  let maxlen := TEXT_BUFFER_SIZE
  let n0 := rendered.length
  let written := rendered.take (maxlen - 1)
  let n := if n0 ≥ maxlen then maxlen else n0
  let maxlen2 := maxlen - n
  if maxlen2 ≥ 2 then written ++ ['\n'] else written

/-- Embedding of the rendering in `log_timestamp`: as `log_text_buf_chars`,
but an initial `snprintf` first writes the `"[ %.0fs ] "` timestamp prefix
(taken here as the list `ts`) and advances `clen`/`maxlen` by its length. -/
def log_timestamp_buf_chars (ts rendered : List Char) : List Char :=
  let maxlen := TEXT_BUFFER_SIZE
  let n1 := ts.length
  let maxlen1 := maxlen - n1
  let written := ts.take (maxlen - 1) ++ rendered.take (maxlen1 - 1)
  let n := if rendered.length ≥ maxlen1 then maxlen1 else rendered.length
  let maxlen2 := maxlen1 - n
  if maxlen2 ≥ 2 then written ++ ['\n'] else written

/-- Core of the truncation argument: writing a rendering and then a newline
into `cap` remaining bytes produces exactly the first `cap - 1` characters
of the rendering-plus-newline. -/
theorem newline_take_core (cap : Nat) (hcap : 1 ≤ cap) (r : List Char) :
    (if cap - (if r.length ≥ cap then cap else r.length) ≥ 2
     then r.take (cap - 1) ++ ['\n']
     else r.take (cap - 1))
    = (r ++ ['\n']).take (cap - 1) := by
  by_cases hA : r.length ≥ cap
  · rw [if_pos hA, if_neg (by omega : ¬ cap - cap ≥ 2)]
    rw [List.take_append_eq_append_take]
    have h0 : cap - 1 - r.length = 0 := by omega
    simp [h0]
  · rw [if_neg hA]
    by_cases hB : cap - r.length ≥ 2
    · rw [if_pos hB]
      have hr : r.take (cap - 1) = r := List.take_of_length_le (by omega)
      have hall : (r ++ ['\n']).take (cap - 1) = r ++ ['\n'] :=
        List.take_of_length_le (by simp; omega)
      rw [hr, hall]
    · rw [if_neg hB]
      rw [List.take_append_eq_append_take]
      have h0 : cap - 1 - r.length = 0 := by omega
      simp [h0]

/-- C9: the text rendered by `log_text` and `log_timestamp` is exactly the
rendering (with the timestamp prefix, for `log_timestamp`) followed by a
newline, truncated to the `TEXT_BUFFER_SIZE - 1` characters that fit the
buffer alongside the terminator — so the newline is appended only within
the remaining space — and its length is always strictly below
`TEXT_BUFFER_SIZE`: no write overruns the buffer.  The hypothesis on `ts`
records that the `"[ %.0fs ] "` prefix is far shorter than the buffer. -/
theorem log_render_buffer_safe (ts rendered : List Char)
    (hts : ts.length < TEXT_BUFFER_SIZE) :
    log_text_buf_chars rendered =
      (rendered ++ ['\n']).take (TEXT_BUFFER_SIZE - 1)
    ∧ (log_text_buf_chars rendered).length < TEXT_BUFFER_SIZE
    ∧ log_timestamp_buf_chars ts rendered =
        (ts ++ rendered ++ ['\n']).take (TEXT_BUFFER_SIZE - 1)
    ∧ (log_timestamp_buf_chars ts rendered).length < TEXT_BUFFER_SIZE := by
  have hT : TEXT_BUFFER_SIZE = 4096 := rfl
  have h1 : log_text_buf_chars rendered =
      (rendered ++ ['\n']).take (TEXT_BUFFER_SIZE - 1) := by
    have := newline_take_core TEXT_BUFFER_SIZE (by omega) rendered
    simpa [log_text_buf_chars] using this
  have h3 : log_timestamp_buf_chars ts rendered =
      (ts ++ rendered ++ ['\n']).take (TEXT_BUFFER_SIZE - 1) := by
    have hcap : 1 ≤ TEXT_BUFFER_SIZE - ts.length := by omega
    have hfit : ts.take (TEXT_BUFFER_SIZE - 1) = ts :=
      List.take_of_length_le (by omega)
    have hcore := newline_take_core (TEXT_BUFFER_SIZE - ts.length) hcap rendered
    have hsplit : ∀ (c : Prop) (inst : Decidable c) (A B : List Char),
        (if c then (A ++ B) ++ ['\n'] else A ++ B) =
          A ++ (if c then B ++ ['\n'] else B) := by
      intro c inst A B
      split <;> simp
    unfold log_timestamp_buf_chars
    simp only [hfit]
    rw [hsplit, hcore]
    have hidx : TEXT_BUFFER_SIZE - 1 - ts.length = TEXT_BUFFER_SIZE - ts.length - 1 := by
      omega
    conv_rhs => rw [List.append_assoc, List.take_append_eq_append_take, hfit, hidx]
  refine ⟨h1, ?_, h3, ?_⟩
  · rw [h1]
    simp only [List.length_take]
    omega
  · rw [h3]
    simp only [List.length_take]
    omega

/-- Witness for C9: a short rendering gets its newline appended intact, and
the hypothesis on the timestamp prefix holds for the concrete prefix
`"[ 5s ] "`. -/
theorem log_render_buffer_safe_witness :
    ("[ 5s ] ".data.length < TEXT_BUFFER_SIZE)
    ∧ log_text_buf_chars "ok".data =
        ("ok".data ++ ['\n']).take (TEXT_BUFFER_SIZE - 1)
    ∧ (log_timestamp_buf_chars "[ 5s ] ".data "ok".data).length < TEXT_BUFFER_SIZE :=
  ⟨by decide,
   (log_render_buffer_safe "[ 5s ] ".data "ok".data (by decide)).1,
   (log_render_buffer_safe "[ 5s ] ".data "ok".data (by decide)).2.2.2⟩

/-- C4: the percentile string builder multiplies each result by 1000 before
formatting and concatenates one formatted entry per element; with the
intermediate format, `[50, 95]` against `[0.010, 0.050]` seconds yields
exactly the expected string, and the empty set yields the empty string. -/
theorem create_pct_string_spec :
    create_pct_string_intermediate [50, 95] [1 / 100, 5 / 100] =
      "lat (ms,50.00%): 10.00 lat (ms,95.00%): 50.00 "
    ∧ (∀ f : Rat → Rat → String, create_pct_string f [] [] = "")
    ∧ (∀ (f : Rat → Rat → String) (p r : Rat) (ps rs : List Rat),
        create_pct_string f (p :: ps) (r :: rs) =
          f p (SEC2MS r) ++ create_pct_string f ps rs) := by
  refine ⟨?_, fun _ => rfl, fun _ _ _ _ _ => rfl⟩
  have h50 : ((50 : Rat) * 100 + 1 / 2).floor = 5000 := by
    rw [rat_floor_eq_int_floor]
    norm_num [Int.floor_eq_iff]
  have h95 : ((95 : Rat) * 100 + 1 / 2).floor = 9500 := by
    rw [rat_floor_eq_int_floor]
    norm_num [Int.floor_eq_iff]
  have h10 : (SEC2MS (1 / 100) * 100 + 1 / 2).floor = 1000 := by
    rw [rat_floor_eq_int_floor]
    norm_num [SEC2MS, Int.floor_eq_iff]
  have h50ms : (SEC2MS (5 / 100) * 100 + 1 / 2).floor = 5000 := by
    rw [rat_floor_eq_int_floor]
    norm_num [SEC2MS, Int.floor_eq_iff]
  have e1 : fmt_f2 5 50 = "50.00" := by
    simp only [fmt_f2, h50]
    decide
  have e2 : fmt_f2 4 (SEC2MS (1 / 100)) = "10.00" := by
    simp only [fmt_f2, h10]
    decide
  have e3 : fmt_f2 5 95 = "95.00" := by
    simp only [fmt_f2, h95]
    decide
  have e4 : fmt_f2 4 (SEC2MS (5 / 100)) = "50.00" := by
    simp only [fmt_f2, h50ms]
    decide
  simp only [create_pct_string_intermediate, create_pct_string, fmt_intermediate,
    e1, e2, e3, e4]
  decide

/-- The `" errno = %d (%s)"` suffix that `log_errno` renders after the
caller's text: the error code in decimal followed by the description in
parentheses. -/
def errno_suffix (code : Int) (desc : List Char) : List Char :=
  " errno = ".data ++ (toString code).data ++ " (".data ++ desc ++ ")".data

/-- Embedding of `log_errno`.  `old_errno` is the OS error code captured by
the very first statement, before any rendering; `errdesc` is the description
produced by the platform lookup (`strncpy` caps it at `ERROR_BUFFER_SIZE`
bytes); `rendered` is the full untruncated rendering of the caller's format.
`none` models the early `return` (nothing forwarded to the text path);
`some buf` models `log_text(priority, "%s", buf)`.  The guard is the C's
`n < 0 || n == TEXT_BUFFER_SIZE`: it fires only when the rendering's length
is exactly `TEXT_BUFFER_SIZE`.  When the length strictly exceeds
`TEXT_BUFFER_SIZE`, the C code falls through and calls
`snprintf(buf + n, TEXT_BUFFER_SIZE - n, ...)` with an out-of-bounds pointer
and a negative size — undefined behavior; the buffer at that point holds the
truncated rendering, which the final branch forwards. -/
def log_errno (old_errno : Int) (errdesc : List Char) (rendered : List Char) :
    Option (List Char) :=
  let tmp := errdesc.take ERROR_BUFFER_SIZE
  let n := rendered.length
  if n = TEXT_BUFFER_SIZE then
    none
  else if n < TEXT_BUFFER_SIZE then
    some (rendered ++ (errno_suffix old_errno tmp).take (TEXT_BUFFER_SIZE - n - 1))
  else
    some (rendered.take (TEXT_BUFFER_SIZE - 1))

/-- A rendering strictly longer than the buffer is not caught by the
guard: `log_errno` falls through and forwards the truncated buffer. -/
theorem log_errno_no_skip_above (e : Int) (d r : List Char)
    (h : TEXT_BUFFER_SIZE < r.length) :
    log_errno e d r = some (r.take (TEXT_BUFFER_SIZE - 1)) := by
  simp only [log_errno]
  rw [if_neg (by omega), if_neg (by omega)]

/-- A rendering of length exactly `TEXT_BUFFER_SIZE` is skipped: `log_errno`
returns without forwarding anything. -/
theorem log_errno_skips_exact_fill (e : Int) (d r : List Char)
    (h : r.length = TEXT_BUFFER_SIZE) :
    log_errno e d r = none := by
  simp only [log_errno]
  rw [if_pos h]

/-- C5 (code bug): a rendering of length 4097 strictly overflows the
`TEXT_BUFFER_SIZE` (4096) buffer, yet `log_errno` does not skip it: the
guard `n == TEXT_BUFFER_SIZE` misses it and the call still forwards text to
the output path.  Only an exact fill (length 4096) is skipped. -/
theorem log_errno_overflow_not_skipped :
    TEXT_BUFFER_SIZE < (List.replicate 4097 'a').length
    ∧ log_errno 2 "No such file or directory".data (List.replicate 4097 'a')
        = some ((List.replicate 4097 'a').take (TEXT_BUFFER_SIZE - 1))
    ∧ log_errno 2 "No such file or directory".data (List.replicate 4096 'a')
        = none := by
  have h1 : (List.replicate 4097 'a').length = 4097 := List.length_replicate 4097 'a'
  have h2 : (List.replicate 4096 'a').length = 4096 := List.length_replicate 4096 'a'
  refine ⟨?_, ?_, ?_⟩
  · rw [h1]
    norm_num [TEXT_BUFFER_SIZE]
  · exact log_errno_no_skip_above 2 _ _ (by rw [h1]; norm_num [TEXT_BUFFER_SIZE])
  · exact log_errno_skips_exact_fill 2 _ _ (by rw [h2]; rfl)

/-- Modelled from the spec: the message-type enumeration `log_msg_type_t`
is declared in `sb_logger.h`, not among these sources.  Per the spec it has
a reserved minimum sentinel, the usable types, and a maximum sentinel; as a
C enum its values are consecutive integers starting at the minimum
sentinel. -/
def LOG_MSG_TYPE_MIN : Int := 0

/-- The TEXT message type. -/
def LOG_MSG_TYPE_TEXT : Int := 1

/-- The OPER message type. -/
def LOG_MSG_TYPE_OPER : Int := 2

/-- The maximum sentinel of `log_msg_type_t`. -/
def LOG_MSG_TYPE_MAX : Int := 3

/-- A registered handler as `log_add_handler` sees it: an identity for
chain membership and whether it declares configuration options
(`handler->args != NULL`). -/
structure LogHandler where
  id : Nat
  hasArgs : Bool
deriving DecidableEq, Repr

/-- The registry state `log_add_handler` mutates: one handler chain per
message type (the static `handlers` array) and the sequence of argument
sets forwarded to `sb_register_arg_set`, in registration order. -/
structure HandlerRegistry where
  chains : Nat → List Nat
  argSets : List Nat

/-- Embedding of `log_add_handler`: rejects a type at or below the minimum
sentinel or at or above the maximum sentinel, leaving the registry
untouched; otherwise registers the handler's argument set (when it has one)
and appends the handler at the tail of that type's chain. -/
def log_add_handler (type : Int) (handler : LogHandler) (reg : HandlerRegistry) :
    Nat × HandlerRegistry :=
  if type ≤ LOG_MSG_TYPE_MIN ∨ type ≥ LOG_MSG_TYPE_MAX then
    (1, reg)
  else
    let reg1 := if handler.hasArgs then
        { reg with argSets := reg.argSets ++ [handler.id] }
      else reg
    (0, { reg1 with
          chains := fun t =>
            if t = type.toNat then reg1.chains t ++ [handler.id] else reg1.chains t })

/-- C6: registration fails exactly for a type at or below the minimum
sentinel or at or above the maximum sentinel; a failed registration leaves
the whole registry (all chains and the registered argument sets)
unmodified; a successful one appends the handler at the tail of its type's
chain, leaves every other chain unchanged, and registers the handler's
argument set exactly when it declares one. -/
theorem log_add_handler_range (type : Int) (handler : LogHandler) (reg : HandlerRegistry) :
    ((type ≤ LOG_MSG_TYPE_MIN ∨ type ≥ LOG_MSG_TYPE_MAX) ↔
      (log_add_handler type handler reg).1 ≠ 0)
    ∧ ((log_add_handler type handler reg).1 ≠ 0 →
        (log_add_handler type handler reg).2 = reg)
    ∧ ((log_add_handler type handler reg).1 = 0 →
        (log_add_handler type handler reg).2.chains type.toNat =
          reg.chains type.toNat ++ [handler.id]
        ∧ (∀ t : Nat, t ≠ type.toNat →
            (log_add_handler type handler reg).2.chains t = reg.chains t)
        ∧ (log_add_handler type handler reg).2.argSets =
            (if handler.hasArgs then reg.argSets ++ [handler.id] else reg.argSets)) := by
  by_cases hr : type ≤ LOG_MSG_TYPE_MIN ∨ type ≥ LOG_MSG_TYPE_MAX
  · refine ⟨?_, ?_, ?_⟩
    · simp [log_add_handler, hr]
    · intro _
      simp [log_add_handler, hr]
    · intro h0
      simp [log_add_handler, hr] at h0
  · refine ⟨?_, ?_, ?_⟩
    · simp [log_add_handler, hr]
    · intro hne
      simp [log_add_handler, hr] at hne
    · intro _
      by_cases ha : handler.hasArgs <;>
        refine ⟨by simp [log_add_handler, hr, ha], fun t ht => ?_, by simp [log_add_handler, hr, ha]⟩ <;>
          simp [log_add_handler, hr, ha, ht]

/-- An empty registry: every chain empty, no argument sets registered. -/
def emptyRegistry : HandlerRegistry :=
  { chains := fun _ => [], argSets := [] }

/-- Witness for C6: registering at the minimum sentinel (0) fails and
leaves the empty registry unchanged; registering a TEXT handler (type 1)
succeeds and appends it to chain 1. -/
theorem log_add_handler_range_witness :
    (log_add_handler 0 ⟨7, true⟩ emptyRegistry).1 ≠ 0
    ∧ (log_add_handler 0 ⟨7, true⟩ emptyRegistry).2 = emptyRegistry
    ∧ (log_add_handler 1 ⟨7, true⟩ emptyRegistry).1 = 0
    ∧ (log_add_handler 1 ⟨7, true⟩ emptyRegistry).2.chains 1 = [7] := by
  have h0 := log_add_handler_range 0 ⟨7, true⟩ emptyRegistry
  have h1 := log_add_handler_range 1 ⟨7, true⟩ emptyRegistry
  have hfail : (log_add_handler 0 ⟨7, true⟩ emptyRegistry).1 ≠ 0 :=
    h0.1.mp (Or.inl (by norm_num [LOG_MSG_TYPE_MIN]))
  have hsucc : (log_add_handler 1 ⟨7, true⟩ emptyRegistry).1 = 0 := by
    by_contra hne
    rcases h1.1.mpr hne with h | h
    · norm_num [LOG_MSG_TYPE_MIN] at h
    · norm_num [LOG_MSG_TYPE_MAX] at h
  refine ⟨hfail, h0.2.1 hfail, hsucc, ?_⟩
  have hc := (h1.2.2 hsucc).1
  simpa [emptyRegistry] using hc

/-- The logger's global state as the claims about `log_done`, `log_text`
and `log_timestamp` need it: the `initialized` flag, the configured
verbosity, the text handler's dedup state, and the handler registry. -/
structure LoggerState where
  initialized : Bool
  verbosity : Nat
  text_state : TextState
  registry : HandlerRegistry

/-- Embedding of `log_done`: walks the chains invoking each handler's
`done` operation (the built-in text handler has none; the operation handler
releases the external histogram) — none of which touches the chains or the
dedup state — and then clears `initialized`. -/
def log_done (s : LoggerState) : LoggerState :=
  { s with initialized := false }

/-- Embedding of `log_text` (with the default registry, whose TEXT chain
holds the built-in text handler): renders into the fixed buffer, prints
directly to the console with the severity prefix when the logger is not
initialized, and otherwise dispatches a TEXT message with a zero flags word
(duplicate checking enabled) through the text handler. -/
def log_text (s : LoggerState) (priority : LogMsgPriority) (rendered : List Char) :
    LoggerState × List String :=
  let buf := String.mk (log_text_buf_chars rendered)
  if s.initialized = false then
    (s, [msg_pfx priority ++ buf])
  else
    let pr := text_handler_process s.verbosity ⟨priority, buf, false⟩ s.text_state
    ({ s with text_state := pr.1 }, pr.2)

/-- Embedding of `log_timestamp`: as `log_text`, but with the timestamp
prefix in the buffer and the `LOG_MSG_TEXT_ALLOW_DUPLICATES` flag set. -/
def log_timestamp (s : LoggerState) (priority : LogMsgPriority)
    (ts rendered : List Char) : LoggerState × List String :=
  let buf := String.mk (log_timestamp_buf_chars ts rendered)
  if s.initialized = false then
    (s, [msg_pfx priority ++ buf])
  else
    let pr := text_handler_process s.verbosity ⟨priority, buf, true⟩ s.text_state
    ({ s with text_state := pr.1 }, pr.2)

/-- C10: after `log_done` the initialized flag is clear and the chains and
dedup state are untouched; every subsequent `log_text` or `log_timestamp`
call takes the degraded path: it prints the rendered buffer with the
severity prefix directly (no verbosity filtering, no deduplication, no
dispatch) and leaves the whole logger state unchanged. -/
theorem log_done_degraded (s : LoggerState) (p : LogMsgPriority)
    (ts rendered : List Char) :
    (log_done s).initialized = false
    ∧ (log_done s).registry = s.registry
    ∧ (log_done s).text_state = s.text_state
    ∧ log_text (log_done s) p rendered =
        (log_done s, [msg_pfx p ++ String.mk (log_text_buf_chars rendered)])
    ∧ log_timestamp (log_done s) p ts rendered =
        (log_done s, [msg_pfx p ++ String.mk (log_timestamp_buf_chars ts rendered)]) := by
  refine ⟨rfl, rfl, rfl, ?_, ?_⟩ <;> simp [log_text, log_timestamp, log_done]
